/-
Verification of the job-application-agent repository.

Shallow embedding of the Python modules `src/scraper.py`, `src/classifier.py`,
`src/customizer.py`, `src/utils.py` and `src/agent.py`.  Python floats are
modelled as exact rationals (ℚ): every arithmetic operation the embedded code
performs is a single division of small integers or a comparison, so ordering
and equality facts proved here reflect the float computations faithfully.
Python dictionaries with a fixed key set are modelled as structures; a key
read with `dict.get(k, default)` that may be absent is modelled by the default
value (for jobs, a missing `requirements` key and an empty list are
indistinguishable to every function in the program, since both are read
through `dict.get` with an empty-list default).
-/
import Mathlib

set_option maxRecDepth 10000

/-! ### Job model (`src/scraper.py`) -/

/-- A job posting dictionary, as built literally in `JobScraper.__init__`. -/
structure Job where
  id : String
  title : String
  company : String
  location : String
  description : String
  requirements : List String
  experienceRequired : Nat
  salaryRange : String
  postedDate : String
  jobType : String
deriving DecidableEq, Repr, Inhabited

/-- The eight-entry literal catalog from `JobScraper.__init__` (`self.sample_jobs`). -/
def sampleJobs : List Job := [
  { id := "job_001", title := "Senior Python Developer", company := "Tech Giants Inc",
    location := "Remote",
    description := "We are looking for an experienced Python developer with 5+ years expertise in Django, FastAPI, and cloud technologies.",
    requirements := ["Python", "Django", "FastAPI", "Docker", "AWS", "PostgreSQL", "REST API"],
    experienceRequired := 5, salaryRange := "$120k - $160k", postedDate := "2025-11-01",
    jobType := "Full-time" },
  { id := "job_002", title := "React Frontend Developer", company := "Innovation Labs",
    location := "San Francisco, CA",
    description := "Build amazing web applications with React, TypeScript, and modern frontend tools.",
    requirements := ["React", "TypeScript", "JavaScript", "CSS", "REST API", "Git"],
    experienceRequired := 3, salaryRange := "$100k - $140k", postedDate := "2025-11-03",
    jobType := "Full-time" },
  { id := "job_003", title := "Machine Learning Engineer", company := "AI Solutions Corp",
    location := "Remote",
    description := "Develop and deploy machine learning models using TensorFlow, PyTorch, and cloud infrastructure.",
    requirements := ["Python", "Machine Learning", "TensorFlow", "PyTorch", "SQL", "AWS", "Docker"],
    experienceRequired := 4, salaryRange := "$130k - $180k", postedDate := "2025-11-05",
    jobType := "Full-time" },
  { id := "job_004", title := "DevOps Engineer", company := "Cloud Systems Ltd",
    location := "New York, NY",
    description := "Manage cloud infrastructure, CI/CD pipelines, and deployment automation.",
    requirements := ["Docker", "Kubernetes", "AWS", "Jenkins", "Terraform", "Linux", "Python"],
    experienceRequired := 3, salaryRange := "$110k - $150k", postedDate := "2025-11-06",
    jobType := "Full-time" },
  { id := "job_005", title := "Full Stack Developer", company := "StartUp Co",
    location := "Austin, TX",
    description := "Build end-to-end web applications using modern tech stack. Startup environment.",
    requirements := ["React", "Node.js", "MongoDB", "REST API", "JavaScript", "Docker"],
    experienceRequired := 2, salaryRange := "$90k - $130k", postedDate := "2025-11-07",
    jobType := "Full-time" },
  { id := "job_006", title := "Data Engineer", company := "Data Corp",
    location := "Seattle, WA",
    description := "Build data pipelines and infrastructure for analytics at scale.",
    requirements := ["Python", "SQL", "Spark", "Kafka", "AWS", "Airflow", "ETL"],
    experienceRequired := 4, salaryRange := "$120k - $160k", postedDate := "2025-11-08",
    jobType := "Full-time" },
  { id := "job_007", title := "Backend Engineer", company := "Microservices Inc",
    location := "Remote",
    description := "Design and implement scalable microservices architecture.",
    requirements := ["Java", "Spring", "Microservices", "Kubernetes", "REST API", "PostgreSQL"],
    experienceRequired := 5, salaryRange := "$125k - $170k", postedDate := "2025-11-09",
    jobType := "Full-time" },
  { id := "job_008", title := "Cloud Architect", company := "Enterprise Tech",
    location := "Boston, MA",
    description := "Design cloud-native solutions and lead architecture decisions.",
    requirements := ["AWS", "Azure", "Kubernetes", "Terraform", "Python", "Microservices"],
    experienceRequired := 7, salaryRange := "$150k - $200k", postedDate := "2025-11-10",
    jobType := "Full-time" }
]

/-! ### String helpers for the Python operations used by the scraper -/

/-- `charsLead n h` holds when the character list `n` occurs at the head of `h`. -/
def charsLead : List Char → List Char → Bool
  | [], _ => true
  | _ :: _, [] => false
  | c :: cs, d :: ds => c == d && charsLead cs ds

/-- `charsSub n h` holds when `n` occurs contiguously anywhere inside `h`:
the semantics of the Python membership test `n in h` on strings. -/
def charsSub (n : List Char) : List Char → Bool
  | [] => charsLead n []
  | d :: ds => charsLead n (d :: ds) || charsSub n ds

/-- The Python `needle in haystack` substring test. -/
def strContainsSub (haystack needle : String) : Bool :=
  charsSub needle.data haystack.data

/-- The Python method `str.lower` (all strings in this program are ASCII, where
`Char.toLower` and `str.lower` agree).  Defined by structural recursion over
the character list so that it evaluates inside the kernel, which the
accelerated `String.toLower` of the standard library does not. -/
def pyToLower (s : String) : String :=
  ⟨s.data.map Char.toLower⟩

/-- Worker for `pySplitWs`: `cur` is the reversed current word. -/
def wsSplitGo (cur : List Char) : List Char → List String
  | [] => if cur.isEmpty then [] else [⟨cur.reverse⟩]
  | c :: cs =>
    if c.isWhitespace then
      if cur.isEmpty then wsSplitGo [] cs else ⟨cur.reverse⟩ :: wsSplitGo [] cs
    else wsSplitGo (c :: cur) cs

/-- The Python method `str.split` with no argument: split on runs of whitespace,
dropping empty pieces. -/
def pySplitWs (s : String) : List String :=
  wsSplitGo [] s.data

/-! ### `JobScraper.search_jobs` and the other pure queries -/

/-- The searchable text built for each job in `search_jobs`: the title, the
description and the space-joined requirements, space-separated and
lowercased. -/
def jobSearchText (job : Job) : String :=
  pyToLower (job.title ++ " " ++ job.description ++ " " ++ String.intercalate " " job.requirements)

/-- The per-job test of the `search_jobs` loop body: a job is kept unless a
`continue` fires.  `keyword_list = keywords.lower().split() if keywords else []`
(identical to splitting unconditionally, since splitting the empty string
yields `[]`), then the
keyword check runs only when the list is non-empty, and the location check only
when `location` is non-empty. -/
def matchesSearch (keywords location : String) (job : Job) : Bool :=
  let keywordList := pySplitWs (pyToLower keywords)
  let jobText := jobSearchText job
  (keywordList.isEmpty || keywordList.any (fun kw => strContainsSub jobText kw)) &&
  (location == "" || strContainsSub (pyToLower job.location) (pyToLower location))

/-- `JobScraper.search_jobs` on a newly constructed scraper: filter the literal
catalog (each kept job is appended as `job.copy()`, a value copy) and truncate
with `matched_jobs[:limit]`. -/
def searchJobs (keywords location : String) (limit : Nat) : List Job :=
  (sampleJobs.filter (matchesSearch keywords location)).take limit

/-- `JobScraper.get_job_by_id` on a newly constructed scraper: first catalog
entry with the given id, if any. -/
def getJobById (jobId : String) : Option Job :=
  sampleJobs.find? (fun job => job.id == jobId)

/-! ### `JobRelevanceClassifier` (`src/classifier.py`) -/

/-- The lowercased string set `set(s.lower() for s in l)`. -/
def lowerSet (l : List String) : Finset String :=
  (l.map pyToLower).toFinset

/-- `JobRelevanceClassifier.classify_job`.  Reads the requirements list (a
missing key defaults to the empty list); returns `0.5` when that list is
empty, else `min(|resume_set ∩ job_set| / |job_set|, 1.0)` over the lowercased
sets (the experience-required field is read into a local but never used). -/
def classifyJob (job : Job) (resumeSkills : List String) : ℚ :=
  let jobSkills := job.requirements
  if jobSkills.isEmpty then 1 / 2
  else
    let resumeSet := lowerSet resumeSkills
    let jobSet := lowerSet jobSkills
    let matchingSkills := (resumeSet ∩ jobSet).card
    let totalRequired := jobSet.card
    let skillScore : ℚ := if 0 < totalRequired then (matchingSkills : ℚ) / totalRequired else 0
    min skillScore 1

/-- `JobRelevanceClassifier._get_recommendation`. -/
def getRecommendation (score : ℚ) : String :=
  if 8 / 10 ≤ score then "Highly Recommended - Strong match"
  else if 6 / 10 ≤ score then "Recommended - Good match"
  else if 4 / 10 ≤ score then "Consider - Moderate match"
  else if 2 / 10 ≤ score then "Possible - Weak match"
  else "Not Recommended - Poor match"

/-- The dictionary returned by `JobRelevanceClassifier.get_match_details`.
The Python `list(...)` of each set is modelled as the set itself (the set
iteration order of Python is unspecified); the formatted `match_percentage` string is
derived from `relevanceScore` and carries no extra information, so it is not
repeated here. -/
structure MatchDetails where
  relevanceScore : ℚ
  matchingSkills : Finset String
  missingSkills : Finset String
  extraSkills : Finset String
  recommendation : String
deriving DecidableEq, Inhabited

/-- `JobRelevanceClassifier.get_match_details`: here the score is
`|matching| / |job_set|` when `job_set` is non-empty, else `0`. -/
def getMatchDetails (job : Job) (resumeSkills : List String) : MatchDetails :=
  let resumeSet := lowerSet resumeSkills
  let jobSet := lowerSet job.requirements
  let matching := resumeSet ∩ jobSet
  let missing := jobSet \ resumeSet
  let extra := resumeSet \ jobSet
  let score : ℚ := if jobSet.Nonempty then (matching.card : ℚ) / jobSet.card else 0
  { relevanceScore := score, matchingSkills := matching, missingSkills := missing,
    extraSkills := extra, recommendation := getRecommendation score }

/-- `JobRelevanceClassifier.filter_relevant_jobs`: keep `(job, score)` pairs
with `score >= threshold`, then `relevant.sort(key=lambda x: x[1], reverse=True)`
(the stable Python sort, descending by score — modelled by the stable
`List.mergeSort`). -/
def filterRelevantJobs (jobs : List Job) (resumeSkills : List String)
    (threshold : ℚ) : List (Job × ℚ) :=
  let relevant := jobs.filterMap (fun job =>
    let score := classifyJob job resumeSkills
    if threshold ≤ score then some (job, score) else none)
  relevant.mergeSort (fun a b => decide (b.2 ≤ a.2))

/-! ### `UtilityFunctions.calculate_skill_match` (`src/utils.py`) -/

/-- `UtilityFunctions.calculate_skill_match`: `1.0` when `job_skills` is empty,
`0.0` when `resume_skills` is empty, else `|resume_set ∩ job_set| / |job_set|`
over the lowercased sets. -/
def calculateSkillMatch (resumeSkills jobSkills : List String) : ℚ :=
  if jobSkills.isEmpty then 1
  else if resumeSkills.isEmpty then 0
  else
    let resumeSet := lowerSet resumeSkills
    let jobSet := lowerSet jobSkills
    let matching := (resumeSet ∩ jobSet).card
    let total := jobSet.card
    if 0 < total then (matching : ℚ) / total else 0

/-! ### `ResumeCustomizer` (`src/customizer.py`) -/

/-- The résumé dictionary shape used by `ResumeCustomizer.sample_resume`. -/
structure Resume where
  name : String
  email : String
  phone : String
  location : String
  experience : Nat
  skills : List String
  summary : String
  experienceDetails : List String
  education : String
  certifications : List String
deriving DecidableEq, Repr

/-- The `customized_for` sub-dictionary of a customized résumé. -/
structure CustomizedFor where
  jobTitle : String
  company : String
  matchingSkills : List String
  matchScore : ℚ
deriving DecidableEq, Repr, Inhabited

/-- The dictionary returned by `ResumeCustomizer.customize_for_job`: the
résumé keys plus `customized_for`. -/
structure CustomizedResume where
  name : String
  email : String
  phone : String
  location : String
  experience : Nat
  skills : List String
  summary : String
  experienceDetails : List String
  education : String
  certifications : List String
  customizedFor : CustomizedFor
deriving DecidableEq, Repr, Inhabited

/-- `ResumeCustomizer` holds the MAYINI model and vocabulary passed to
`__init__` plus the literal sample résumé.  The model and vocabulary types are
arbitrary parameters: every instantiation (however the model was constructed
or trained) is covered by theorems quantified over `M` and `V`. -/
structure ResumeCustomizer (M V : Type) where
  model : M
  vocab : V
  sampleResume : Resume

/-- The literal `self.sample_resume` from `ResumeCustomizer.__init__`. -/
def sampleResumeDef : Resume :=
  { name := "Alex Chen", email := "alex.chen@email.com", phone := "+1-555-0123",
    location := "San Francisco, CA", experience := 6,
    skills := ["Python", "Java", "Docker", "Kubernetes", "AWS",
               "Machine Learning", "PostgreSQL", "REST API", "Git"],
    summary := "Experienced software engineer with 6+ years building scalable distributed systems and machine learning applications",
    experienceDetails := [
      "Led team of 8 engineers developing microservices platform serving 10M+ users",
      "Architected and deployed Kubernetes infrastructure reducing deployment time by 70%",
      "Implemented ML pipeline processing 1B+ events daily with 99.9% uptime",
      "Reduced API latency by 60% through query optimization and caching strategies"],
    education := "BS Computer Science, Stanford University",
    certifications := ["AWS Certified Solutions Architect", "Kubernetes Administrator"] }

/-- `ResumeCustomizer.__init__(model, vocab)`. -/
def mkResumeCustomizer {M V : Type} (model : M) (vocab : V) : ResumeCustomizer M V :=
  { model := model, vocab := vocab, sampleResume := sampleResumeDef }

/-- `ResumeCustomizer._get_matching_skills`: the résumé skills (in résumé
order, original casing) whose lowercase form lies in both lowercased sets. -/
def getMatchingSkills (resumeSkills jobSkills : List String) : List String :=
  let resumeSet := lowerSet resumeSkills
  let jobSet := lowerSet jobSkills
  let matching := resumeSet ∩ jobSet
  resumeSkills.filter (fun s => decide (pyToLower s ∈ matching))

/-- `ResumeCustomizer._select_relevant_experience`: score each bullet by the
number of lowercased job skills occurring in its lowercased text, stable-sort
descending by score, keep the first four. -/
def selectRelevantExperience (experienceDetails : List String)
    (jobSkills : List String) : List String :=
  let jobSkillsLower := lowerSet jobSkills
  let scored := experienceDetails.map (fun e =>
    ((jobSkillsLower.filter (fun skill => strContainsSub (pyToLower e) skill)).card, e))
  let sorted := scored.mergeSort (fun a b => decide (b.1 ≤ a.1))
  (sorted.take 4).map (fun p => p.2)

/-- `ResumeCustomizer._generate_custom_summary`: the fixed f-string template
filled with the experience years of the résumé and the comma-space join of the
first five matching skills (the `job_title` and `company` arguments are
accepted but unused). -/
def generateCustomSummary (resume : Resume) (jobTitle company : String)
    (matchingSkills : List String) : String :=
  let experienceYears := resume.experience
  let skillsStr := String.intercalate ", " (matchingSkills.take 5)
  "Experienced software engineer with " ++ toString experienceYears ++
    "+ years of expertise specializing in " ++ skillsStr ++
    ". Proven track record in building scalable systems and delivering high-impact solutions. Passionate about leveraging technology to solve complex problems."

/-- `ResumeCustomizer.customize_for_job`. -/
def customizeForJob {M V : Type} (c : ResumeCustomizer M V) (job : Job) :
    CustomizedResume :=
  let jobTitle := job.title
  let jobSkills := job.requirements
  let company := job.company
  let matchingSkills := getMatchingSkills c.sampleResume.skills jobSkills
  let prioritizedSkills := matchingSkills ++
    c.sampleResume.skills.filter (fun s => !(matchingSkills.contains s))
  let customizedSummary := generateCustomSummary c.sampleResume jobTitle company matchingSkills
  let relevantExperience := selectRelevantExperience c.sampleResume.experienceDetails jobSkills
  { name := c.sampleResume.name, email := c.sampleResume.email,
    phone := c.sampleResume.phone, location := c.sampleResume.location,
    experience := c.sampleResume.experience,
    skills := prioritizedSkills.take 10,
    summary := customizedSummary,
    experienceDetails := relevantExperience,
    education := c.sampleResume.education,
    certifications := c.sampleResume.certifications,
    customizedFor :=
      { jobTitle := jobTitle, company := company, matchingSkills := matchingSkills,
        matchScore := if jobSkills.isEmpty then 0
                      else (matchingSkills.length : ℚ) / jobSkills.length } }

/-- `ResumeCustomizer.generate_cover_letter`: a fixed f-string template
(written here already `.strip()`-ed, as the Python method returns it). -/
def generateCoverLetter {M V : Type} (c : ResumeCustomizer M V) (job : Job)
    (resume : CustomizedResume) : String :=
  let name := resume.name
  let jobTitle := job.title
  let company := job.company
  let matchingSkills := resume.customizedFor.matchingSkills
  "Dear Hiring Manager,\n\nI am writing to express my strong interest in the " ++
    jobTitle ++ " position at " ++ company ++ ". \nWith " ++
    toString resume.experience ++
    " years of professional experience and expertise in \n" ++
    String.intercalate ", " (matchingSkills.take 3) ++
    ", I am confident I would be a valuable addition to your team.\n\n" ++
    resume.summary ++
    "\n\nI am particularly excited about this opportunity because it aligns perfectly with my \ntechnical skills and career goals. I look forward to the possibility of discussing how \nmy experience and skills can contribute to " ++
    company ++ "\x27s success.\n\nThank you for considering my application.\n\nBest regards,\n" ++
    name

/-- `ResumeCustomizer.batch_customize`. -/
def batchCustomize {M V : Type} (c : ResumeCustomizer M V) (jobs : List Job) :
    List CustomizedResume :=
  jobs.map (fun job => customizeForJob c job)

/-! ### `JobApplicationAgent.run_workflow` (`src/agent.py`) -/

/-- One application record built in the `run_workflow` loop. -/
structure Application where
  job : Job
  relevanceScore : ℚ
  matchDetails : MatchDetails
  customizedResume : CustomizedResume
  coverLetter : String
  applicationStatus : String
  recommendedAction : String
deriving DecidableEq, Inhabited

/-- The dictionary returned by `run_workflow`.  The early-return branch for an
empty search result is folded in with `message` marking it; the purely
presentational `summary` sub-dictionary (formatted strings derived from the
scores) is not repeated here. -/
structure WorkflowResult where
  totalJobsFound : Nat
  relevantJobs : Nat
  passRate : ℚ
  avgRelevanceScore : ℚ
  applications : List Application
  message : Option String
deriving DecidableEq

/-- `JobApplicationAgent.run_workflow`: search, score each job against the
skill list of the sample résumé, keep jobs with a relevance score at least
`min_relevance` building the full application record, then sort the
applications by relevance score, descending and stable — modelled by the
stable `List.mergeSort`. -/
def runWorkflow {M V : Type} (c : ResumeCustomizer M V) (keywords location : String)
    (numJobs : Nat) (minRelevance : ℚ) : WorkflowResult :=
  let jobs := searchJobs keywords location numJobs
  if jobs.isEmpty then
    { totalJobsFound := 0, relevantJobs := 0, passRate := 0, avgRelevanceScore := 0,
      applications := [], message := some "No jobs found matching criteria" }
  else
    let resume := c.sampleResume
    let resumeSkills := resume.skills
    let applications := jobs.filterMap (fun job =>
      let relevanceScore := classifyJob job resumeSkills
      if minRelevance ≤ relevanceScore then
        let customizedResume := customizeForJob c job
        let matchDetails := getMatchDetails job resumeSkills
        some { job := job, relevanceScore := relevanceScore,
               matchDetails := matchDetails,
               customizedResume := customizedResume,
               coverLetter := generateCoverLetter c job customizedResume,
               applicationStatus := "Ready to Apply",
               recommendedAction := matchDetails.recommendation }
      else none)
    let sortedApps := applications.mergeSort
      (fun a b => decide (b.relevanceScore ≤ a.relevanceScore))
    { totalJobsFound := jobs.length,
      relevantJobs := sortedApps.length,
      passRate := if jobs.isEmpty then 0 else (sortedApps.length : ℚ) / jobs.length,
      avgRelevanceScore := if sortedApps.isEmpty then 0
        else ((sortedApps.map (fun a => a.relevanceScore)).sum / sortedApps.length : ℚ),
      applications := sortedApps,
      message := none }

/-! ### `MAYINITransformerBlock.forward` (`src/mayini_model.py`)

The block is built from framework primitives (`nn.MultiheadAttention`, an MLP
`feed_forward`, two `nn.LayerNorm`s, `nn.Dropout`).  Its `forward` only
composes these sublayers with `+` (tensor addition), so it is embedded over an
arbitrary tensor type `T` with addition, the sublayers being the state of the block:
`attention q k v mask` returns the pair `(attn_output, attn_weights)` exactly
as `nn.MultiheadAttention.__call__` does. -/

/-- The sublayers held by a `MAYINITransformerBlock` after `__init__`:
`self.attention`, `self.feed_forward`, `self.norm1`, `self.norm2`,
`self.dropout`. -/
structure MAYINITransformerBlock (T M W : Type) where
  attention : T → T → T → Option M → T × W
  feedForward : T → T
  norm1 : T → T
  norm2 : T → T
  dropout : T → T

/-- `MAYINITransformerBlock.forward`, line by line:
`attn_out, _ = self.attention(x, x, x, key_padding_mask=mask)`;
`x = self.norm1(x + self.dropout(attn_out))`;
`ff_out = self.feed_forward(x)`;
`x = self.norm2(x + ff_out)`; `return x`. -/
def MAYINITransformerBlock.forward {T M W : Type} [Add T]
    (b : MAYINITransformerBlock T M W) (x : T) (mask : Option M) : T :=
  let attnOut := (b.attention x x x mask).1
  let x1 := b.norm1 (x + b.dropout attnOut)
  let ffOut := b.feedForward x1
  let x2 := b.norm2 (x1 + ffOut)
  x2

/-! ### Reference-semantics model of the scraper queries (`src/scraper.py`)

Python dictionaries are heap objects: `search_jobs`, `get_job_by_id` and
`get_all_jobs` return `job.copy()`, a fresh top-level dictionary.  To state
the frame property this is modelled operationally: a store of job dictionaries
addressed by allocation order, the `sample_jobs` list of the scraper being a list of
addresses into it.  Returning `job.copy()` allocates a new address holding the
same value; mutating a dictionary (`d[key] = value`) overwrites the store at
its address. -/

/-- The heap-level scraper state: `store` is the allocation-ordered heap of
job dictionaries, `catalog` the addresses held by `self.sample_jobs`. -/
structure ScraperState where
  store : List Job
  catalog : List Nat
deriving DecidableEq

/-- Well-formedness: every catalog address is allocated. -/
def ScraperState.WF (st : ScraperState) : Prop :=
  ∀ a ∈ st.catalog, a < st.store.length

instance (st : ScraperState) : Decidable st.WF := by
  unfold ScraperState.WF; infer_instance

/-- Read the dictionary at address `a`. -/
def ScraperState.read (st : ScraperState) (a : Nat) : Option Job :=
  st.store[a]?

/-- `d[key] = value` on the dictionary at address `a`, with `j` the updated
dictionary value (replacing one field is the special case where `j` differs
from the stored value in that field). -/
def ScraperState.write (st : ScraperState) (a : Nat) (j : Job) : ScraperState :=
  { store := st.store.set a j, catalog := st.catalog }

/-- The loop of `search_jobs`: walk the catalog addresses; each match appends
`job.copy()` — a freshly allocated copy — to the result. -/
def searchJobsRefGo (keywords location : String) :
    List Nat → ScraperState → List Nat × ScraperState
  | [], st => ([], st)
  | a :: rest, st =>
    match st.store[a]? with
    | some job =>
      if matchesSearch keywords location job then
        let st1 : ScraperState := { store := st.store ++ [job], catalog := st.catalog }
        (st.store.length :: (searchJobsRefGo keywords location rest st1).1,
          (searchJobsRefGo keywords location rest st1).2)
      else searchJobsRefGo keywords location rest st
    | none => searchJobsRefGo keywords location rest st

/-- `JobScraper.search_jobs` under reference semantics: filter-and-copy, then
`matched_jobs[:limit]`. -/
def searchJobsRef (st : ScraperState) (keywords location : String) (limit : Nat) :
    List Nat × ScraperState :=
  ((searchJobsRefGo keywords location st.catalog st).1.take limit,
    (searchJobsRefGo keywords location st.catalog st).2)

/-- The loop of `get_job_by_id`: first catalog entry with the given id is
returned as a freshly allocated `job.copy()`. -/
def getJobByIdRefGo (jobId : String) :
    List Nat → ScraperState → Option Nat × ScraperState
  | [], st => (none, st)
  | a :: rest, st =>
    match st.store[a]? with
    | some job =>
      if job.id == jobId then
        (some st.store.length, { store := st.store ++ [job], catalog := st.catalog })
      else getJobByIdRefGo jobId rest st
    | none => getJobByIdRefGo jobId rest st

/-- `JobScraper.get_job_by_id` under reference semantics. -/
def getJobByIdRef (st : ScraperState) (jobId : String) : Option Nat × ScraperState :=
  getJobByIdRefGo jobId st.catalog st

/-- The comprehension of `get_all_jobs`: `[job.copy() for job in self.sample_jobs]`,
each copy freshly allocated. -/
def getAllJobsRefGo : List Nat → ScraperState → List Nat × ScraperState
  | [], st => ([], st)
  | a :: rest, st =>
    match st.store[a]? with
    | some job =>
      let st1 : ScraperState := { store := st.store ++ [job], catalog := st.catalog }
      (st.store.length :: (getAllJobsRefGo rest st1).1, (getAllJobsRefGo rest st1).2)
    | none => getAllJobsRefGo rest st

/-- `JobScraper.get_all_jobs` under reference semantics. -/
def getAllJobsRef (st : ScraperState) : List Nat × ScraperState :=
  getAllJobsRefGo st.catalog st

/-- The state right after `JobScraper.__init__`: the eight literal dictionaries
allocated at addresses `0..7`, all held by `sample_jobs`. -/
def initScraperState : ScraperState :=
  { store := sampleJobs, catalog := List.range sampleJobs.length }

/-! ### Shared test fixtures and helper lemmas -/

/-- A minimal job dictionary with the given requirements, used to instantiate
universally quantified theorems at concrete inputs. -/
def mkTestJob (reqs : List String) : Job :=
  { id := "test_job", title := "Test Title", company := "Test Co",
    location := "Nowhere", description := "A test job.",
    requirements := reqs, experienceRequired := 1, salaryRange := "$0",
    postedDate := "2025-01-01", jobType := "Full-time" }

theorem lowerSet_empty_iff (l : List String) : lowerSet l = ∅ ↔ l = [] := by
  unfold lowerSet
  rw [List.toFinset_eq_empty_iff, List.map_eq_nil_iff]

theorem lowerSet_card_pos (l : List String) (h : l ≠ []) : 0 < (lowerSet l).card := by
  rw [Finset.card_pos, Finset.nonempty_iff_ne_empty]
  intro hc
  exact h ((lowerSet_empty_iff l).mp hc)

/-- Closed form of `classifyJob` on non-empty requirements: the intersection
cardinality over the requirement-set cardinality, with the `min(..., 1.0)`
discharged since the ratio never exceeds `1`. -/
theorem classifyJob_score_eq (job : Job) (resumeSkills : List String)
    (h : job.requirements ≠ []) :
    classifyJob job resumeSkills =
      ((lowerSet resumeSkills ∩ lowerSet job.requirements).card : ℚ) /
        ((lowerSet job.requirements).card : ℚ) := by
  have hcard : 0 < (lowerSet job.requirements).card := lowerSet_card_pos _ h
  have hcardQ : (0 : ℚ) < ((lowerSet job.requirements).card : ℚ) := by exact_mod_cast hcard
  have hle : ((lowerSet resumeSkills ∩ lowerSet job.requirements).card : ℚ) /
      ((lowerSet job.requirements).card : ℚ) ≤ 1 := by
    rw [div_le_one hcardQ]
    exact_mod_cast Finset.card_le_card Finset.inter_subset_right
  have hne : job.requirements.isEmpty = false := by
    cases hr : job.requirements with
    | nil => exact absurd hr h
    | cons a l => rfl
  simp only [classifyJob]
  rw [hne]
  simp only [Bool.false_eq_true, if_false, if_pos hcard]
  exact min_eq_left hle

theorem classifyJob_nonneg (job : Job) (resumeSkills : List String) :
    0 ≤ classifyJob job resumeSkills := by
  simp only [classifyJob]
  split
  · norm_num
  · apply le_min
    · split
      · exact div_nonneg (Nat.cast_nonneg _) (Nat.cast_nonneg _)
      · exact le_refl 0
    · norm_num

theorem classifyJob_le_one (job : Job) (resumeSkills : List String) :
    classifyJob job resumeSkills ≤ 1 := by
  simp only [classifyJob]
  split
  · norm_num
  · exact min_le_right _ _

/-- The score the C1 claim asserts, written from the spec sentence: the
Jaccard overlap `|R ∩ J| / |R ∪ J|` of the lowercased resume-skill set and the
lowercased requirement set.  This is the refinement target the claim states;
`classifyJob` above is the translation of the source. -/
def jaccardOverlap (job : Job) (resumeSkills : List String) : ℚ :=
  let r := lowerSet resumeSkills
  let j := lowerSet job.requirements
  ((r ∩ j).card : ℚ) / ((r ∪ j).card : ℚ)

/-! ### C1 -/

/-- C1 (counterexample): with requirements `["Python"]` (non-empty) and resume
skills `["Python", "Java"]`, `classify_job` returns `1` (the whole requirement
set is covered), while the Jaccard overlap `|R ∩ J| / |R ∪ J|` of the claim is
`1/2`: the code divides by `|J|`, not by `|R ∪ J|`. -/
theorem classifyJob_ne_jaccard_cex :
    (mkTestJob ["Python"]).requirements ≠ [] ∧
    classifyJob (mkTestJob ["Python"]) ["Python", "Java"] = 1 ∧
    jaccardOverlap (mkTestJob ["Python"]) ["Python", "Java"] = 1 / 2 ∧
    classifyJob (mkTestJob ["Python"]) ["Python", "Java"] ≠
      jaccardOverlap (mkTestJob ["Python"]) ["Python", "Java"] := by
  have hreq : (mkTestJob ["Python"]).requirements ≠ [] := by simp [mkTestJob]
  have hm : (lowerSet ["Python", "Java"] ∩ lowerSet (mkTestJob ["Python"]).requirements).card
      = 1 := by decide
  have ht : (lowerSet (mkTestJob ["Python"]).requirements).card = 1 := by decide
  have hu : (lowerSet ["Python", "Java"] ∪ lowerSet (mkTestJob ["Python"]).requirements).card
      = 2 := by decide
  have hc : classifyJob (mkTestJob ["Python"]) ["Python", "Java"] = 1 := by
    rw [classifyJob_score_eq _ _ hreq, hm, ht]
    norm_num
  have hj : jaccardOverlap (mkTestJob ["Python"]) ["Python", "Java"] = 1 / 2 := by
    simp only [jaccardOverlap]
    rw [hm, hu]
    norm_num
  refine ⟨hreq, hc, hj, ?_⟩
  rw [hc, hj]
  norm_num

/-- C1 (amended): for every job whose `requirements` list is non-empty and
every resume-skill list, `classify_job` returns the overlap of the lowercased
sets measured against the requirement set alone — `|R ∩ J| / |J|`, not the
Jaccard ratio — a value in `[0, 1]`. -/
theorem classifyJob_overlap_of_requirements (job : Job) (resumeSkills : List String)
    (h : job.requirements ≠ []) :
    classifyJob job resumeSkills =
      ((lowerSet resumeSkills ∩ lowerSet job.requirements).card : ℚ) /
        ((lowerSet job.requirements).card : ℚ) ∧
    0 ≤ classifyJob job resumeSkills ∧ classifyJob job resumeSkills ≤ 1 :=
  ⟨classifyJob_score_eq job resumeSkills h, classifyJob_nonneg job resumeSkills,
    classifyJob_le_one job resumeSkills⟩

/-- Witness for the amended C1 at a concrete non-empty-requirements input. -/
theorem classifyJob_overlap_witness :
    classifyJob (mkTestJob ["Python", "Django"]) ["python"] =
      ((lowerSet ["python"] ∩ lowerSet (mkTestJob ["Python", "Django"]).requirements).card : ℚ) /
        ((lowerSet (mkTestJob ["Python", "Django"]).requirements).card : ℚ) ∧
    0 ≤ classifyJob (mkTestJob ["Python", "Django"]) ["python"] ∧
    classifyJob (mkTestJob ["Python", "Django"]) ["python"] ≤ 1 :=
  classifyJob_overlap_of_requirements (mkTestJob ["Python", "Django"]) ["python"]
    (by simp [mkTestJob])

/-! ### C9 -/

/-- C9: on a job whose `requirements` entry is absent or the empty list (both
read as `[]` through the defaulted dictionary read), `classify_job` returns
exactly `0.5` whatever the resume skills, while
`UtilityFunctions.calculate_skill_match` returns `1.0` for an empty job-skill
list: the two public skill-match entry points disagree on this edge case. -/
theorem classify_empty_requirements_disagreement :
    (∀ (job : Job) (resumeSkills : List String),
      job.requirements = [] → classifyJob job resumeSkills = 1 / 2) ∧
    (∀ resumeSkills : List String, calculateSkillMatch resumeSkills [] = 1) ∧
    ((1 : ℚ) / 2 ≠ 1) := by
  refine ⟨?_, ?_, by norm_num⟩
  · intro job resumeSkills h
    simp only [classifyJob]
    rw [h]
    rfl
  · intro resumeSkills
    rfl

/-- Witness for C9 at concrete inputs. -/
theorem classify_empty_requirements_witness :
    classifyJob (mkTestJob []) ["Python"] = 1 / 2 ∧
    calculateSkillMatch ["Python"] [] = 1 :=
  ⟨classify_empty_requirements_disagreement.1 (mkTestJob []) ["Python"] rfl,
    classify_empty_requirements_disagreement.2.1 ["Python"]⟩

/-! ### C7 -/

/-- C7: `classify_job` depends only on the two underlying lowercased string
sets — any two resume-skill lists with the same lowercased value set and any
two jobs whose requirement lists have the same lowercased value set produce
the same score (order, duplicates and letter case are immaterial). -/
theorem classifyJob_extensional (job₁ job₂ : Job) (rs₁ rs₂ : List String)
    (hr : lowerSet rs₁ = lowerSet rs₂)
    (hj : lowerSet job₁.requirements = lowerSet job₂.requirements) :
    classifyJob job₁ rs₁ = classifyJob job₂ rs₂ := by
  have h1 : ∀ l : List String, l.isEmpty = decide (lowerSet l = ∅) := by
    intro l
    cases l with
    | nil => simp [lowerSet]
    | cons a t =>
      have hne : lowerSet (a :: t) ≠ ∅ := by
        rw [Ne, lowerSet_empty_iff]
        simp
      simp [hne]
  have hempty : job₁.requirements.isEmpty = job₂.requirements.isEmpty := by
    rw [h1, h1, hj]
  simp only [classifyJob]
  cases he : job₂.requirements.isEmpty with
  | true =>
    rw [hempty, he]
    simp
  | false =>
    rw [hempty, he]
    simp only [Bool.false_eq_true, if_false]
    rw [hr, hj]

/-- Witness for C7: same lowercased sets with different case, order and
duplicates give the same score. -/
theorem classifyJob_extensional_witness :
    classifyJob (mkTestJob ["python", "PYTHON", "Django"]) ["Java", "AWS"] =
      classifyJob (mkTestJob ["Python", "django"]) ["JAVA", "aws", "java"] :=
  classifyJob_extensional (mkTestJob ["python", "PYTHON", "Django"])
    (mkTestJob ["Python", "django"]) ["Java", "AWS"] ["JAVA", "aws", "java"]
    (by decide) (by decide)

/-! ### C2 -/

/-- C2: on a newly constructed scraper, `search_jobs` returns a subsequence of
the hardcoded eight-entry catalog, in catalog order, of length at most
`limit`; every returned entry is one of the eight literal dictionaries (the
function consults no other source: it is defined from `sampleJobs` alone). -/
theorem searchJobs_subsequence_of_catalog (keywords location : String) (limit : Nat) :
    (searchJobs keywords location limit).Sublist sampleJobs ∧
    (searchJobs keywords location limit).length ≤ limit ∧
    (searchJobs keywords location limit).Forall (fun job => job ∈ sampleJobs) := by
  have hsub : (searchJobs keywords location limit).Sublist sampleJobs :=
    (List.take_sublist _ _).trans (List.filter_sublist _)
  refine ⟨hsub, List.length_take_le _ _, ?_⟩
  rw [List.forall_iff_forall_mem]
  exact fun job hj => hsub.subset hj

/-! ### C3 -/

/-- C3: the language model never influences the core workflow.  For any two
model/vocabulary pairs — of arbitrary types, so however constructed or
trained — the customizers built from them agree on `customize_for_job`,
`generate_cover_letter` and `batch_customize` at every input: none of these
methods reads `self.model` or `self.vocab`. -/
theorem model_never_influences_customizer :
    ∀ (M₁ V₁ M₂ V₂ : Type) (m₁ : M₁) (v₁ : V₁) (m₂ : M₂) (v₂ : V₂)
      (job : Job) (jobs : List Job) (resume : CustomizedResume),
      customizeForJob (mkResumeCustomizer m₁ v₁) job =
        customizeForJob (mkResumeCustomizer m₂ v₂) job ∧
      generateCoverLetter (mkResumeCustomizer m₁ v₁) job resume =
        generateCoverLetter (mkResumeCustomizer m₂ v₂) job resume ∧
      batchCustomize (mkResumeCustomizer m₁ v₁) jobs =
        batchCustomize (mkResumeCustomizer m₂ v₂) jobs := by
  intro M₁ V₁ M₂ V₂ m₁ v₁ m₂ v₂ job jobs resume
  exact ⟨rfl, rfl, rfl⟩

/-! ### C5 -/

/-- C5: the `summary` field of the customized résumé is exactly the fixed
template filled with the experience value of the sample résumé and the comma-space
join of the first five matching skills — no other text generation occurs. -/
theorem customize_summary_is_template :
    ∀ (M V : Type) (m : M) (v : V) (job : Job),
      (customizeForJob (mkResumeCustomizer m v) job).summary =
        "Experienced software engineer with " ++ toString sampleResumeDef.experience ++
        "+ years of expertise specializing in " ++
        String.intercalate ", "
          ((getMatchingSkills sampleResumeDef.skills job.requirements).take 5) ++
        ". Proven track record in building scalable systems and delivering high-impact solutions. Passionate about leveraging technology to solve complex problems." := by
  intro M V m v job
  rfl

/-! ### C6 -/

/-- C6: `MAYINITransformerBlock.forward` follows the post-norm residual
pattern: the output is `norm2 (y + feed_forward y)` for
`y = norm1 (x + dropout (attention x x x))` — each layer normalization is
applied after its residual addition, not before the sublayer. -/
theorem transformer_block_post_norm :
    ∀ (T M W : Type) [Add T] (b : MAYINITransformerBlock T M W) (x : T) (mask : Option M),
      b.forward x mask =
        b.norm2 (b.norm1 (x + b.dropout (b.attention x x x mask).1) +
          b.feedForward (b.norm1 (x + b.dropout (b.attention x x x mask).1))) := by
  intro T M W _ b x mask
  rfl

/-! ### C4 -/

theorem getMatchingSkills_eq_filter (resumeSkills jobSkills : List String) :
    getMatchingSkills resumeSkills jobSkills =
      resumeSkills.filter (fun s => decide (pyToLower s ∈ lowerSet jobSkills)) := by
  unfold getMatchingSkills
  apply List.filter_congr
  intro s hs
  have hmem : pyToLower s ∈ lowerSet resumeSkills := by
    unfold lowerSet
    exact List.mem_toFinset.mpr (List.mem_map_of_mem pyToLower hs)
  simp [Finset.mem_inter, hmem]

theorem contains_filter_eq (p : String → Bool) (l : List String) :
    ∀ s ∈ l, (l.filter p).contains s = p s := by
  intro s hs
  cases hp : p s with
  | true =>
    have : s ∈ l.filter p := List.mem_filter.mpr ⟨hs, hp⟩
    simp [List.contains, List.elem_eq_mem, this]
  | false =>
    have : s ∉ l.filter p := by
      intro hmem
      rw [List.mem_filter] at hmem
      rw [hp] at hmem
      exact Bool.false_ne_true hmem.2
    simp [List.contains, List.elem_eq_mem, this]

/-- C4: the `skills` field of the customized résumé is the matching résumé
skills in résumé order followed by the remaining résumé skills in résumé
order, truncated to at most 10 entries — and it is a permutation of the
built-in nine-entry sample-resume skills list (nothing added or removed). -/
theorem customize_skills_permutation :
    ∀ (M V : Type) (m : M) (v : V) (job : Job),
      (customizeForJob (mkResumeCustomizer m v) job).skills =
        (sampleResumeDef.skills.filter
            (fun s => decide (pyToLower s ∈ lowerSet job.requirements)) ++
          sampleResumeDef.skills.filter
            (fun s => !decide (pyToLower s ∈ lowerSet job.requirements))).take 10 ∧
      ((customizeForJob (mkResumeCustomizer m v) job).skills).Perm
        sampleResumeDef.skills := by
  intro M V m v job
  have hskills : (customizeForJob (mkResumeCustomizer m v) job).skills
      = (getMatchingSkills sampleResumeDef.skills job.requirements ++
          sampleResumeDef.skills.filter
            (fun s => !((getMatchingSkills sampleResumeDef.skills job.requirements).contains s))).take 10 :=
    rfl
  have h2 : sampleResumeDef.skills.filter
        (fun s => !((getMatchingSkills sampleResumeDef.skills job.requirements).contains s))
      = sampleResumeDef.skills.filter
        (fun s => !decide (pyToLower s ∈ lowerSet job.requirements)) := by
    apply List.filter_congr
    intro s hs
    rw [getMatchingSkills_eq_filter, contains_filter_eq _ _ s hs]
  have heq : (customizeForJob (mkResumeCustomizer m v) job).skills
      = (sampleResumeDef.skills.filter
            (fun s => decide (pyToLower s ∈ lowerSet job.requirements)) ++
          sampleResumeDef.skills.filter
            (fun s => !decide (pyToLower s ∈ lowerSet job.requirements))).take 10 := by
    rw [hskills, h2, getMatchingSkills_eq_filter]
  have hperm := List.filter_append_perm
    (fun s => decide (pyToLower s ∈ lowerSet job.requirements)) sampleResumeDef.skills
  have hlen : (sampleResumeDef.skills.filter
        (fun s => decide (pyToLower s ∈ lowerSet job.requirements)) ++
      sampleResumeDef.skills.filter
        (fun s => !decide (pyToLower s ∈ lowerSet job.requirements))).length ≤ 10 := by
    rw [hperm.length_eq]
    decide
  refine ⟨heq, ?_⟩
  rw [heq, List.take_of_length_le hlen]
  exact hperm

/-! ### C8 -/

/-- A stable `mergeSort` descending on a rational key yields a list sorted by
`≥` on that key (the comparator is transitive and total). -/
theorem mergeSort_sorted_by_key {α : Type} (key : α → ℚ) (l : List α) :
    List.Sorted (fun a b => key b ≤ key a)
      (l.mergeSort (fun a b => decide (key b ≤ key a))) := by
  have h := @List.sorted_mergeSort α (fun a b => decide (key b ≤ key a))
    (fun a b c h1 h2 => by
      rw [decide_eq_true_iff] at h1 h2 ⊢
      exact le_trans h2 h1)
    (fun a b => by
      rcases le_total (key b) (key a) with h | h
      · simp [h]
      · simp [h])
    l
  exact h.imp (fun hab => decide_eq_true_iff.mp hab)

/-- C8: every application produced by `run_workflow` has
`relevance_score >= min_relevance` and the applications list is sorted in
non-increasing score order; `filter_relevant_jobs` satisfies the same two
properties with respect to its `threshold` argument. -/
theorem workflow_relevance_filter_and_sort :
    ∀ (M V : Type) (m : M) (v : V) (keywords location : String) (numJobs : Nat)
      (minRelevance : ℚ) (jobs : List Job) (resumeSkills : List String) (threshold : ℚ),
      (runWorkflow (mkResumeCustomizer m v) keywords location numJobs
          minRelevance).applications.Forall
        (fun app => minRelevance ≤ app.relevanceScore) ∧
      List.Sorted (fun a b : Application => b.relevanceScore ≤ a.relevanceScore)
        (runWorkflow (mkResumeCustomizer m v) keywords location numJobs
          minRelevance).applications ∧
      (filterRelevantJobs jobs resumeSkills threshold).Forall
        (fun p => threshold ≤ p.2) ∧
      List.Sorted (fun a b : Job × ℚ => b.2 ≤ a.2)
        (filterRelevantJobs jobs resumeSkills threshold) := by
  intro M V m v keywords location numJobs minRelevance jobs resumeSkills threshold
  refine ⟨?_, ?_, ?_, ?_⟩
  · simp only [runWorkflow]
    by_cases hje : (searchJobs keywords location numJobs).isEmpty
    · rw [if_pos hje]
      exact trivial
    · rw [if_neg hje]
      rw [List.forall_iff_forall_mem]
      intro app happ
      rw [List.mem_mergeSort] at happ
      obtain ⟨job, hjob, hsome⟩ := List.mem_filterMap.mp happ
      split at hsome
      · cases hsome
        assumption
      · cases hsome
  · simp only [runWorkflow]
    by_cases hje : (searchJobs keywords location numJobs).isEmpty
    · rw [if_pos hje]
      exact List.sorted_nil
    · rw [if_neg hje]
      exact mergeSort_sorted_by_key (fun app : Application => app.relevanceScore) _
  · simp only [filterRelevantJobs]
    rw [List.forall_iff_forall_mem]
    intro p hp
    rw [List.mem_mergeSort] at hp
    obtain ⟨job, hjob, hsome⟩ := List.mem_filterMap.mp hp
    split at hsome
    · cases hsome
      assumption
    · cases hsome
  · simp only [filterRelevantJobs]
    exact mergeSort_sorted_by_key (fun p : Job × ℚ => p.2) _

/-! ### C10 -/

/-- `Forall` over an optional result. -/
def OptForall {α : Type} (p : α → Prop) : Option α → Prop
  | none => True
  | some a => p a

theorem searchJobsRefGo_spec (keywords location : String) :
    ∀ (addrs : List Nat) (st : ScraperState),
      (searchJobsRefGo keywords location addrs st).2.catalog = st.catalog ∧
      st.store.length ≤ (searchJobsRefGo keywords location addrs st).2.store.length ∧
      (∀ i, i < st.store.length →
        (searchJobsRefGo keywords location addrs st).2.store[i]? = st.store[i]?) ∧
      (∀ r ∈ (searchJobsRefGo keywords location addrs st).1, st.store.length ≤ r) := by
  intro addrs
  induction addrs with
  | nil =>
    intro st
    refine ⟨rfl, le_refl _, fun i _ => rfl, ?_⟩
    intro r hr
    cases hr
  | cons a rest ih =>
    intro st
    cases hsa : st.store[a]? with
    | none =>
      simpa only [searchJobsRefGo, hsa] using ih st
    | some job =>
      by_cases hm : matchesSearch keywords location job
      · obtain ⟨ihc, ihlen, ihread, ihres⟩ :=
          ih { store := st.store ++ [job], catalog := st.catalog }
        simp only [searchJobsRefGo, hsa, hm, if_true]
        refine ⟨ihc, ?_, ?_, ?_⟩
        · refine le_trans ?_ ihlen
          simp
        · intro i hi
          rw [ihread i (by simp; omega)]
          exact List.getElem?_append_left hi
        · intro r hr
          rcases List.mem_cons.mp hr with hr | hr
          · exact le_of_eq hr.symm
          · refine le_trans ?_ (ihres r hr)
            simp
      · simpa only [searchJobsRefGo, hsa, hm, if_false] using ih st

theorem getJobByIdRefGo_spec (jobId : String) :
    ∀ (addrs : List Nat) (st : ScraperState),
      (getJobByIdRefGo jobId addrs st).2.catalog = st.catalog ∧
      st.store.length ≤ (getJobByIdRefGo jobId addrs st).2.store.length ∧
      (∀ i, i < st.store.length →
        (getJobByIdRefGo jobId addrs st).2.store[i]? = st.store[i]?) ∧
      OptForall (fun r => st.store.length ≤ r) (getJobByIdRefGo jobId addrs st).1 := by
  intro addrs
  induction addrs with
  | nil =>
    intro st
    exact ⟨rfl, le_refl _, fun i _ => rfl, trivial⟩
  | cons a rest ih =>
    intro st
    cases hsa : st.store[a]? with
    | none =>
      simpa only [getJobByIdRefGo, hsa] using ih st
    | some job =>
      by_cases hid : job.id == jobId
      · simp only [getJobByIdRefGo, hsa, hid, if_true]
        refine ⟨by simp, by simp, ?_, ?_⟩
        · intro i hi
          exact List.getElem?_append_left hi
        · exact le_refl _
      · simpa only [getJobByIdRefGo, hsa, hid, if_false] using ih st

theorem getAllJobsRefGo_spec :
    ∀ (addrs : List Nat) (st : ScraperState),
      (getAllJobsRefGo addrs st).2.catalog = st.catalog ∧
      st.store.length ≤ (getAllJobsRefGo addrs st).2.store.length ∧
      (∀ i, i < st.store.length →
        (getAllJobsRefGo addrs st).2.store[i]? = st.store[i]?) ∧
      (∀ r ∈ (getAllJobsRefGo addrs st).1, st.store.length ≤ r) := by
  intro addrs
  induction addrs with
  | nil =>
    intro st
    refine ⟨rfl, le_refl _, fun i _ => rfl, ?_⟩
    intro r hr
    cases hr
  | cons a rest ih =>
    intro st
    cases hsa : st.store[a]? with
    | none =>
      simpa only [getAllJobsRefGo, hsa] using ih st
    | some job =>
      obtain ⟨ihc, ihlen, ihread, ihres⟩ :=
        ih { store := st.store ++ [job], catalog := st.catalog }
      simp only [getAllJobsRefGo, hsa]
      refine ⟨ihc, ?_, ?_, ?_⟩
      · refine le_trans ?_ ihlen
        simp
      · intro i hi
        rw [ihread i (by simp; omega)]
        exact List.getElem?_append_left hi
      · intro r hr
        rcases List.mem_cons.mp hr with hr | hr
        · exact le_of_eq hr.symm
        · refine le_trans ?_ (ihres r hr)
          simp

/-- C10: the query operations `search_jobs`, `get_job_by_id` and
`get_all_jobs` never modify the `sample_jobs` catalog — its address list and
every dictionary it holds are unchanged — and every job they return is a
freshly allocated top-level copy, so overwriting a returned dictionary (for
instance replacing one of its fields, modelled by `write` with any updated
dictionary `j`) leaves every catalog entry unchanged. -/
theorem scraper_queries_preserve_catalog
    (st : ScraperState) (keywords location jobId : String) (limit : Nat) (j : Job)
    (hwf : st.WF) :
    ((searchJobsRef st keywords location limit).2.catalog = st.catalog ∧
      st.catalog.Forall (fun a =>
        (searchJobsRef st keywords location limit).2.read a = st.read a) ∧
      (searchJobsRef st keywords location limit).1.Forall (fun r =>
        st.catalog.Forall (fun a =>
          (((searchJobsRef st keywords location limit).2.write r j)).read a = st.read a))) ∧
    ((getJobByIdRef st jobId).2.catalog = st.catalog ∧
      st.catalog.Forall (fun a =>
        (getJobByIdRef st jobId).2.read a = st.read a) ∧
      OptForall (fun r =>
        st.catalog.Forall (fun a =>
          (((getJobByIdRef st jobId).2.write r j)).read a = st.read a))
        (getJobByIdRef st jobId).1) ∧
    ((getAllJobsRef st).2.catalog = st.catalog ∧
      st.catalog.Forall (fun a => (getAllJobsRef st).2.read a = st.read a) ∧
      (getAllJobsRef st).1.Forall (fun r =>
        st.catalog.Forall (fun a =>
          (((getAllJobsRef st).2.write r j)).read a = st.read a))) := by
  obtain ⟨sc, slen, sread, sres⟩ := searchJobsRefGo_spec keywords location st.catalog st
  obtain ⟨ic, ilen, iread, ires⟩ := getJobByIdRefGo_spec jobId st.catalog st
  obtain ⟨ac, alen, aread, ares⟩ := getAllJobsRefGo_spec st.catalog st
  refine ⟨⟨sc, ?_, ?_⟩, ⟨ic, ?_, ?_⟩, ⟨ac, ?_, ?_⟩⟩
  · rw [List.forall_iff_forall_mem]
    intro a ha
    exact sread a (hwf a ha)
  · rw [List.forall_iff_forall_mem]
    intro r hr
    rw [List.forall_iff_forall_mem]
    intro a ha
    have hfresh : st.store.length ≤ r :=
      sres r (List.mem_of_mem_take hr)
    have hne : r ≠ a := by
      have := hwf a ha
      omega
    show ((searchJobsRefGo keywords location st.catalog st).2.store.set r j)[a]? = _
    rw [List.getElem?_set_ne hne]
    exact sread a (hwf a ha)
  · rw [List.forall_iff_forall_mem]
    intro a ha
    exact iread a (hwf a ha)
  · show OptForall (fun r =>
        List.Forall (fun a =>
          (((getJobByIdRef st jobId).2.write r j)).read a = st.read a) st.catalog)
      (getJobByIdRefGo jobId st.catalog st).1
    cases hres : (getJobByIdRefGo jobId st.catalog st).1 with
    | none => exact trivial
    | some r =>
      rw [hres] at ires
      show List.Forall (fun a =>
        (((getJobByIdRef st jobId).2.write r j)).read a = st.read a) st.catalog
      rw [List.forall_iff_forall_mem]
      intro a ha
      have hne : r ≠ a := by
        have h1 := hwf a ha
        have h2 : st.store.length ≤ r := ires
        omega
      show ((getJobByIdRefGo jobId st.catalog st).2.store.set r j)[a]? = _
      rw [List.getElem?_set_ne hne]
      exact iread a (hwf a ha)
  · rw [List.forall_iff_forall_mem]
    intro a ha
    exact aread a (hwf a ha)
  · rw [List.forall_iff_forall_mem]
    intro r hr
    rw [List.forall_iff_forall_mem]
    intro a ha
    have hne : r ≠ a := by
      have h1 := hwf a ha
      have h2 := ares r hr
      omega
    show ((getAllJobsRefGo st.catalog st).2.store.set r j)[a]? = _
    rw [List.getElem?_set_ne hne]
    exact aread a (hwf a ha)

/-- Witness for C10: on the freshly initialized scraper state, the three query
operations leave the catalog intact. -/
theorem scraper_queries_preserve_catalog_witness :
    (searchJobsRef initScraperState "" "" 3).2.catalog = initScraperState.catalog ∧
    (getJobByIdRef initScraperState "job_002").2.catalog = initScraperState.catalog ∧
    (getAllJobsRef initScraperState).2.catalog = initScraperState.catalog ∧
    initScraperState.catalog.Forall (fun a =>
      (searchJobsRef initScraperState "" "" 3).2.read a = initScraperState.read a) := by
  have h := scraper_queries_preserve_catalog initScraperState "" "" "job_002" 3
    (mkTestJob []) (by decide)
  exact ⟨h.1.1, h.2.1.1, h.2.2.1, h.1.2.1⟩
